import Mathlib

/-!
# Verification of the crypto-price relay server

Shallow embedding of the two variants of `server.js` in this repository:
the CoinGecko variant (`src/server.js`) and the CoinMarketCap variant
(`src/unnamed/part_000`).  Both variants expose `GET /` and `GET /prices`
and a `fetchCryptoPrices` function that issues one upstream HTTP GET,
validates the reply and normalizes it into a flat symbol-to-price object.

The embedding models JavaScript runtime values (`JSValue`), property access
(including the `TypeError` thrown by an access on `null` or `undefined`,
modelled as `Option.none`), truthiness, and the per-identifier loops of
both fetchers.  Machine floats of the payload are modelled as rationals;
none of the verified properties depend on float rounding or on `NaN`.
-/

set_option autoImplicit false

/-- A JavaScript runtime value as it occurs in this program: the result of
`JSON.parse` on an upstream body, plus `undefined` (which a property read
of an absent key produces, and which can be stored in an object by the
CoinMarketCap loop).  Numbers are modelled as rationals. -/
inductive JSValue where
  | undef : JSValue
  | null : JSValue
  | bool : Bool → JSValue
  | num : ℚ → JSValue
  | str : String → JSValue
  | arr : List JSValue → JSValue
  | obj : List (String × JSValue) → JSValue

/-- First-match lookup of a key in an object's field list; `undef` when the
key is absent.  Objects produced by `JSON.parse` carry no duplicate keys,
so first-match agrees with JavaScript property lookup. -/
def lookupField : List (String × JSValue) → String → JSValue
  | [], _ => JSValue.undef
  | (k, v) :: rest, key => if k = key then v else lookupField rest key

/-- Decimal reading of a property key, for array and string indexing
(`v[0]`, obtained from the number 0, is the access this program performs).
Like JavaScript array-index lookup it accepts digit strings; non-canonical
forms with leading zeros, which JavaScript would treat as plain property
names, do not occur here. -/
def keyToIndex (s : String) : Option Nat :=
  match s.data with
  | [] => none
  | cs =>
      if cs.all Char.isDigit then
        some (cs.foldl (fun n c => 10 * n + (c.toNat - 48)) 0)
      else none

/-- JavaScript property access `v[key]`.  `none` models the `TypeError`
thrown when the receiver is `null` or `undefined`.  Arrays expose `length`
and numeric indices; strings expose `length` and per-character indices
(code-unit subtleties are irrelevant here, all data is ASCII); any other
receiver yields `undefined` for every key used by this program. -/
def jsGet : JSValue → String → Option JSValue
  | JSValue.undef, _ => none
  | JSValue.null, _ => none
  | JSValue.obj fs, key => some (lookupField fs key)
  | JSValue.arr xs, key =>
      some (if key = "length" then JSValue.num (xs.length : ℚ)
            else match keyToIndex key with
                 | some i => xs.getD i JSValue.undef
                 | none => JSValue.undef)
  | JSValue.str s, key =>
      some (if key = "length" then JSValue.num (s.length : ℚ)
            else match keyToIndex key with
                 | some i =>
                     match s.data.get? i with
                     | some c => JSValue.str (String.mk [c])
                     | none => JSValue.undef
                 | none => JSValue.undef)
  | _, _ => some JSValue.undef

/-- Property access on a receiver that is known not to be `null` or
`undefined` (so the access cannot throw); the `undef` default is
unreachable in that case. -/
def jsGetD (v : JSValue) (key : String) : JSValue :=
  (jsGet v key).getD JSValue.undef

/-- JavaScript truthiness.  `NaN` (falsy in JavaScript) does not arise:
numbers are rationals here. -/
def truthy : JSValue → Bool
  | JSValue.undef => false
  | JSValue.null => false
  | JSValue.bool b => b
  | JSValue.num q => decide (q ≠ 0)
  | JSValue.str s => decide (s ≠ "")
  | JSValue.arr _ => true
  | JSValue.obj _ => true

/-- Numeric conversion of a string, as used by the `>` comparison:
a trimmed-empty string is `0`, an optionally signed decimal integer is its
value, anything else is `NaN` (`none`).  Fractional, exponent and hex
literals are not modelled; no payload in scope produces them. -/
def strToNumber (s : String) : Option ℚ :=
  let t := s.trim
  if t = "" then some 0 else (t.toInt?).map (fun n => (n : ℚ))

/-- JavaScript `ToNumber`, to the extent the `length > 0` comparison of the
CoinMarketCap loop needs it; `none` is `NaN`.  Object and array receivers
coerce through `toString` in JavaScript; that corner is modelled as `NaN`
(it can only differ on payloads whose `length` member is itself an object
or array, where either reading makes the comparison irrelevant below). -/
def jsToNumber : JSValue → Option ℚ
  | JSValue.undef => none
  | JSValue.null => some 0
  | JSValue.bool b => some (if b then 1 else 0)
  | JSValue.num q => some q
  | JSValue.str s => strToNumber s
  | JSValue.arr _ => none
  | JSValue.obj _ => none

/-- The JavaScript comparison `v > 0` (false when `v` converts to `NaN`). -/
def jsGtZero (v : JSValue) : Bool :=
  match jsToNumber v with
  | none => false
  | some q => decide (0 < q)

/-- The JavaScript strict comparison `v !== 0`: false exactly on the
number `0`. -/
def jsStrictNeqZero : JSValue → Bool
  | JSValue.num q => decide (q ≠ 0)
  | _ => true

/-- Rendering of a rational inside a template literal.  JavaScript float
formatting is approximated by exact rational notation; no verified
property inspects this text. -/
def ratToString (q : ℚ) : String :=
  if q.den = 1 then toString q.num else toString q.num ++ "/" ++ toString q.den

mutual

/-- String conversion of a value inside a template literal
(`${...}` interpolation). -/
def jsTemplate : JSValue → String
  | JSValue.undef => "undefined"
  | JSValue.null => "null"
  | JSValue.bool b => if b then "true" else "false"
  | JSValue.num q => ratToString q
  | JSValue.str s => s
  | JSValue.arr xs => jsTemplateList xs
  | JSValue.obj _ => "[object Object]"

/-- Array-to-string conversion: elements joined by commas, with `null` and
`undefined` elements rendered empty, as `Array.prototype.toString` does. -/
def jsTemplateList : List JSValue → String
  | [] => ""
  | v :: rest =>
      (match v with
       | JSValue.undef => ""
       | JSValue.null => ""
       | w => jsTemplate w)
      ++ (match rest with
          | [] => ""
          | _ => ",")
      ++ jsTemplateList rest

end

/-- `String.prototype.toLowerCase`, which coincides with per-character
lowering on the ASCII identifiers of this program. -/
def toLowerCase (s : String) : String := String.mk (s.data.map Char.toLower)

/-- Whether an object value carries a field named `key` (used to state the
dispatch of the `/prices` route). -/
def hasField (v : JSValue) (key : String) : Bool :=
  match v with
  | JSValue.obj fs => (fs.map Prod.fst).contains key
  | _ => false

/-! ## The upstream HTTP dependency

One outbound GET per `/prices` request.  What the program observes of it:
whether `fetch` itself rejected (network-level error), and otherwise the
reply's status, status text, body text (`response.text()`) and the outcome
of `response.json()` (a parsed value, or the message of the parse error it
throws on malformed JSON). -/

/-- The observable upstream HTTP reply. -/
structure UpstreamResponse where
  status : Nat
  statusText : String
  bodyText : String
  json : Except String JSValue

/-- `response.ok` of the WHATWG fetch API: status in the inclusive range
200-299. -/
def UpstreamResponse.ok (r : UpstreamResponse) : Bool :=
  decide (200 ≤ r.status) && decide (r.status ≤ 299)

/-- Everything the upstream call can do, as observed by `fetchCryptoPrices`:
reject with an error carrying a message, or deliver a reply. -/
inductive UpstreamBehavior where
  | netError : String → UpstreamBehavior
  | response : UpstreamResponse → UpstreamBehavior

/-- The ErrorResult object built by the `catch` block of both variants:
`{ error: 'Failed to fetch cryptocurrency prices', details: error.message }`. -/
def errObj (details : String) : JSValue :=
  JSValue.obj [("error", JSValue.str "Failed to fetch cryptocurrency prices"),
               ("details", JSValue.str details)]

/-- Modelled message of the `TypeError` thrown by a property access on
`null` or `undefined`; the exact JavaScript text varies with the access
site and no verified property inspects it. -/
def typeErrorMsg : String := "Cannot read properties of null or undefined"

/-- The `for...of` loop of both fetchers, which assigns
`result[key s] = value` for each identifier `s` in order.  The body is a
JavaScript expression that can throw (`none`); a throw abandons the loop
and the object under construction.  Identifier keys are pairwise distinct
in both variants, so the assembled object's fields are exactly the listed
pairs in order. -/
def mapItems (f : String → Option JSValue) (key : String → String) :
    List String → Option (List (String × JSValue))
  | [] => some []
  | s :: rest =>
      match f s with
      | none => none
      | some v => (mapItems f key rest).map (fun es => (key s, v) :: es)

/-- The `/prices` route body shared by both variants:
`if (prices.error) res.status(500).json(prices) else res.status(200).json(prices)`.
The fetcher's result is always an object, so the `prices.error` access
cannot throw. -/
def pricesRoute (prices : JSValue) : Nat × JSValue :=
  if truthy (jsGetD prices "error") then (500, prices) else (200, prices)

namespace CoinGecko

/-- The CoinGecko identifier list `CRYPTO_IDS` of `src/server.js`. -/
def CRYPTO_IDS : List String :=
  ["bitcoin", "ethereum", "litecoin", "shiba-inu", "dogecoin",
   "tron", "ripple", "the-open-network", "tether"]

/-- `VS_CURRENCY` of `src/server.js`. -/
def VS_CURRENCY : String := "usd"

/-- One iteration of the loop of `fetchCryptoPrices` in `src/server.js`:
`if (data[id] && data[id][VS_CURRENCY]) r[id] = data[id][VS_CURRENCY] else r[id] = 'N/A'`.
`none` is the `TypeError` of `data[id]` when `data` is `null`; the inner
access happens only on a truthy receiver and cannot throw. -/
def priceItem (data : JSValue) (id : String) : Option JSValue :=
  match jsGet data id with
  | none => none
  | some v1 =>
      if truthy v1 then
        match jsGet v1 VS_CURRENCY with
        | none => none
        | some v2 => if truthy v2 then some v2 else some (JSValue.str "N/A")
      else some (JSValue.str "N/A")

/-- `fetchCryptoPrices` of `src/server.js`: reject of `fetch` is caught;
a non-ok status throws (and is caught) with the templated status message;
`response.json()` failure is caught; otherwise the loop assembles
`formattedPrices` keyed by the identifiers themselves (they are already
lower-case). -/
def fetchCryptoPrices : UpstreamBehavior → JSValue
  | UpstreamBehavior.netError msg => errObj msg
  | UpstreamBehavior.response r =>
      if r.ok then
        match r.json with
        | Except.error m => errObj m
        | Except.ok data =>
            match mapItems (priceItem data) (fun id => id) CRYPTO_IDS with
            | none => errObj typeErrorMsg
            | some entries => JSValue.obj entries
      else
        errObj ("CoinGecko API error: " ++ toString r.status ++ " "
                ++ r.statusText ++ " - " ++ r.bodyText)

/-- The `GET /prices` handler of `src/server.js`, as a function of the
upstream behaviour: status code and JSON body. -/
def handlePrices (b : UpstreamBehavior) : Nat × JSValue :=
  pricesRoute (fetchCryptoPrices b)

/-- The `GET /` handler of `src/server.js`.  The parameter models the state
of the upstream world; the route never contacts upstream, so the response
is a constant: `res.send(...)` with the default status 200. -/
def handleRoot (_b : UpstreamBehavior) : Nat × String :=
  (200, "Welcome to the Crypto Price API! Access /prices to get the latest data.")

end CoinGecko

namespace CoinMarketCap

/-- The CoinMarketCap symbol list `CRYPTO_SYMBOLS` of `src/unnamed/part_000`. -/
def CRYPTO_SYMBOLS : List String :=
  ["BTC", "ETH", "LTC", "SHIB", "DOGE", "TRX", "XRP", "TON", "USDT"]

/-- `CONVERT_CURRENCY` of `src/unnamed/part_000`. -/
def CONVERT_CURRENCY : String := "USD"

/-- One iteration of the loop of `fetchCryptoPrices` in
`src/unnamed/part_000`:
the guard `data.data && data.data[symbol] && data.data[symbol].length > 0 &&
data.data[symbol][0].quote && data.data[symbol][0].quote[CONVERT_CURRENCY]`
evaluated left to right with short-circuiting, then
`r[symbol.toLowerCase()] = data.data[symbol][0].quote[CONVERT_CURRENCY].price`
on success and `'N/A'` otherwise.  `none` is a thrown `TypeError`
(possible at the `.quote` access when element 0 is `null` or absent). -/
def priceItem (data : JSValue) (sym : String) : Option JSValue :=
  match jsGet data "data" with
  | none => none
  | some d =>
      if truthy d then
        match jsGet d sym with
        | none => none
        | some v1 =>
            if truthy v1 then
              match jsGet v1 "length" with
              | none => none
              | some len =>
                  if jsGtZero len then
                    match jsGet v1 "0" with
                    | none => none
                    | some e0 =>
                        match jsGet e0 "quote" with
                        | none => none
                        | some q =>
                            if truthy q then
                              match jsGet q CONVERT_CURRENCY with
                              | none => none
                              | some usd =>
                                  if truthy usd then
                                    match jsGet usd "price" with
                                    | none => none
                                    | some p => some p
                                  else some (JSValue.str "N/A")
                            else some (JSValue.str "N/A")
                  else some (JSValue.str "N/A")
            else some (JSValue.str "N/A")
      else some (JSValue.str "N/A")

/-- `fetchCryptoPrices` of `src/unnamed/part_000`: like the CoinGecko
variant, plus the embedded provider-status check
`if (data.status && data.status.error_code !== 0) throw ...` before the
loop (the `data.status` access throws when `data` is `null`), and keys
lower-cased by `symbol.toLowerCase()`. -/
def fetchCryptoPrices : UpstreamBehavior → JSValue
  | UpstreamBehavior.netError msg => errObj msg
  | UpstreamBehavior.response r =>
      if r.ok then
        match r.json with
        | Except.error m => errObj m
        | Except.ok data =>
            match jsGet data "status" with
            | none => errObj typeErrorMsg
            | some st =>
                if truthy st && jsStrictNeqZero (jsGetD st "error_code") then
                  errObj ("CoinMarketCap API internal error: "
                          ++ jsTemplate (jsGetD st "error_message"))
                else
                  match mapItems (priceItem data) toLowerCase CRYPTO_SYMBOLS with
                  | none => errObj typeErrorMsg
                  | some entries => JSValue.obj entries
      else
        errObj ("CoinMarketCap API error: " ++ toString r.status ++ " "
                ++ r.statusText ++ " - " ++ r.bodyText)

/-- The `GET /prices` handler of `src/unnamed/part_000`. -/
def handlePrices (b : UpstreamBehavior) : Nat × JSValue :=
  pricesRoute (fetchCryptoPrices b)

/-- The `GET /` handler of `src/unnamed/part_000`; constant in the upstream
world, default status 200. -/
def handleRoot (_b : UpstreamBehavior) : Nat × String :=
  (200, "Welcome to the Crypto Price API! Access /prices to get the latest data from CoinMarketCap.")

end CoinMarketCap

/-! ## Helper lemmas about the model -/

theorem lookupField_eq_undef {fs : List (String × JSValue)} {key : String}
    (h : key ∉ fs.map Prod.fst) : lookupField fs key = JSValue.undef := by
  induction fs with
  | nil => rfl
  | cons p rest ih =>
      obtain ⟨k, v⟩ := p
      simp only [List.map_cons, List.mem_cons] at h
      push_neg at h
      simp only [lookupField]
      rw [if_neg (fun hk => h.1 hk.symm), ih h.2]

theorem lookupField_map (l : List String) (g : String → JSValue) (k : String) :
    lookupField (l.map fun s => (s, g s)) k =
      if k ∈ l then g k else JSValue.undef := by
  induction l with
  | nil => simp [lookupField]
  | cons s rest ih =>
      by_cases h : s = k
      · subst h
        simp [lookupField]
      · have hks : ¬k = s := fun hk => h hk.symm
        simp [lookupField, h, hks, ih]

theorem jsGet_eq_some {v : JSValue} (key : String)
    (h1 : v ≠ JSValue.null) (h2 : v ≠ JSValue.undef) :
    jsGet v key = some (jsGetD v key) := by
  cases v <;> simp_all [jsGet, jsGetD]

theorem jsGet_of_truthyD {v : JSValue} {key k2 : String}
    (h : truthy (jsGetD v key) = true) :
    jsGet v k2 = some (jsGetD v k2) := by
  cases v
  case null => simp [jsGetD, jsGet, truthy] at h
  case undef => simp [jsGetD, jsGet, truthy] at h
  all_goals exact jsGet_eq_some k2 (fun hc => nomatch hc) (fun hc => nomatch hc)

theorem jsGet_of_truthy {v : JSValue} (key : String) (h : truthy v = true) :
    jsGet v key = some (jsGetD v key) := by
  cases v
  case null => simp [truthy] at h
  case undef => simp [truthy] at h
  all_goals exact jsGet_eq_some key (fun hc => nomatch hc) (fun hc => nomatch hc)

theorem mapItems_map_fst {f : String → Option JSValue} {key : String → String}
    {l : List String} {es : List (String × JSValue)}
    (h : mapItems f key l = some es) : es.map Prod.fst = l.map key := by
  induction l generalizing es with
  | nil =>
      simp only [mapItems, Option.some_inj] at h
      subst h
      rfl
  | cons s rest ih =>
      simp only [mapItems] at h
      cases hf : f s with
      | none => rw [hf] at h; cases h
      | some v =>
          rw [hf] at h
          cases hm : mapItems f key rest with
          | none => rw [hm] at h; cases h
          | some es' =>
              rw [hm] at h
              simp only [Option.map_some', Option.some_inj] at h
              subst h
              simp [ih hm]

theorem mapItems_cases (f : String → Option JSValue) (key : String → String)
    (l : List String) :
    mapItems f key l = none ∨
      ∃ es, mapItems f key l = some es ∧ es.map Prod.fst = l.map key := by
  cases hm : mapItems f key l with
  | none => exact Or.inl rfl
  | some es => exact Or.inr ⟨es, rfl, mapItems_map_fst hm⟩

theorem mapItems_of_forall {f : String → Option JSValue} {key : String → String}
    {g : String → JSValue} {l : List String}
    (h : ∀ s ∈ l, f s = some (g s)) :
    mapItems f key l = some (l.map fun s => (key s, g s)) := by
  induction l with
  | nil => rfl
  | cons s rest ih =>
      have hs := h s (List.mem_cons_self s rest)
      have ih' := ih (fun t ht => h t (List.mem_cons_of_mem s ht))
      simp [mapItems, hs, ih']

theorem pricesRoute_errObj (d : String) :
    pricesRoute (errObj d) = (500, errObj d) := rfl

theorem pricesRoute_noError {es : List (String × JSValue)}
    (h : "error" ∉ es.map Prod.fst) :
    pricesRoute (JSValue.obj es) = (200, JSValue.obj es) := by
  simp [pricesRoute, jsGetD, jsGet, lookupField_eq_undef h, truthy]

/-- Every output of the CoinGecko fetcher is either an ErrorResult or an
object whose keys are exactly `CRYPTO_IDS` in order. -/
theorem geckoShape (b : UpstreamBehavior) :
    (∃ d, CoinGecko.fetchCryptoPrices b = errObj d) ∨
      (∃ es, CoinGecko.fetchCryptoPrices b = JSValue.obj es ∧
        es.map Prod.fst = CoinGecko.CRYPTO_IDS) := by
  cases b with
  | netError m => exact Or.inl ⟨m, rfl⟩
  | response r =>
      cases hok : r.ok with
      | false =>
          exact Or.inl ⟨"CoinGecko API error: " ++ toString r.status ++ " "
            ++ r.statusText ++ " - " ++ r.bodyText,
            by simp [CoinGecko.fetchCryptoPrices, hok]⟩
      | true =>
          cases hj : r.json with
          | error m =>
              exact Or.inl ⟨m, by simp [CoinGecko.fetchCryptoPrices, hok, hj]⟩
          | ok data =>
              rcases mapItems_cases (CoinGecko.priceItem data) (fun id => id)
                  CoinGecko.CRYPTO_IDS with hm | ⟨es, hm, hkeys⟩
              · exact Or.inl ⟨typeErrorMsg,
                  by simp [CoinGecko.fetchCryptoPrices, hok, hj, hm]⟩
              · refine Or.inr ⟨es, ?_, ?_⟩
                · simp [CoinGecko.fetchCryptoPrices, hok, hj, hm]
                · simpa using hkeys

/-- Every output of the CoinMarketCap fetcher is either an ErrorResult or
an object whose keys are exactly `CRYPTO_SYMBOLS` lower-cased, in order. -/
theorem cmcShape (b : UpstreamBehavior) :
    (∃ d, CoinMarketCap.fetchCryptoPrices b = errObj d) ∨
      (∃ es, CoinMarketCap.fetchCryptoPrices b = JSValue.obj es ∧
        es.map Prod.fst = CoinMarketCap.CRYPTO_SYMBOLS.map toLowerCase) := by
  cases b with
  | netError m => exact Or.inl ⟨m, rfl⟩
  | response r =>
      cases hok : r.ok with
      | false =>
          exact Or.inl ⟨"CoinMarketCap API error: " ++ toString r.status ++ " "
            ++ r.statusText ++ " - " ++ r.bodyText,
            by simp [CoinMarketCap.fetchCryptoPrices, hok]⟩
      | true =>
          cases hj : r.json with
          | error m =>
              exact Or.inl ⟨m, by simp [CoinMarketCap.fetchCryptoPrices, hok, hj]⟩
          | ok data =>
              cases hst : jsGet data "status" with
              | none =>
                  exact Or.inl ⟨typeErrorMsg,
                    by simp [CoinMarketCap.fetchCryptoPrices, hok, hj, hst]⟩
              | some st =>
                  cases hcond : truthy st && jsStrictNeqZero (jsGetD st "error_code") with
                  | true =>
                      exact Or.inl ⟨"CoinMarketCap API internal error: "
                          ++ jsTemplate (jsGetD st "error_message"),
                        by simp [CoinMarketCap.fetchCryptoPrices, hok, hj, hst, hcond]⟩
                  | false =>
                      rcases mapItems_cases (CoinMarketCap.priceItem data) toLowerCase
                          CoinMarketCap.CRYPTO_SYMBOLS with hm | ⟨es, hm, hkeys⟩
                      · exact Or.inl ⟨typeErrorMsg,
                          by simp [CoinMarketCap.fetchCryptoPrices, hok, hj, hst, hcond, hm]⟩
                      · refine Or.inr ⟨es, ?_, hkeys⟩
                        simp [CoinMarketCap.fetchCryptoPrices, hok, hj, hst, hcond, hm]

/-! ## Claims -/

/-- C2: whenever `fetchCryptoPrices` returns a PriceMap (not an
ErrorResult), that map has exactly one entry per configured identifier —
its key list is exactly the configured list (lower-cased in the
CoinMarketCap variant, already lower-case in the CoinGecko variant), which
is duplicate-free — for every possible upstream behaviour, in both
variants. -/
theorem claim_C2 :
    (∀ b, (∃ d, CoinGecko.fetchCryptoPrices b = errObj d) ∨
      (∃ es, CoinGecko.fetchCryptoPrices b = JSValue.obj es ∧
        es.map Prod.fst = CoinGecko.CRYPTO_IDS)) ∧
    (∀ b, (∃ d, CoinMarketCap.fetchCryptoPrices b = errObj d) ∨
      (∃ es, CoinMarketCap.fetchCryptoPrices b = JSValue.obj es ∧
        es.map Prod.fst = CoinMarketCap.CRYPTO_SYMBOLS.map toLowerCase)) ∧
    CoinGecko.CRYPTO_IDS.Nodup ∧
    (CoinMarketCap.CRYPTO_SYMBOLS.map toLowerCase).Nodup :=
  ⟨geckoShape, cmcShape, by decide, by decide⟩

/-- C3: `fetchCryptoPrices` never propagates an exception: in both
variants and for every upstream behaviour it returns an object that is
either the full PriceMap or an ErrorResult with exactly the fields
`error` and `details`; a network-level rejection with message `m` and a
JSON-parse failure with message `m` both yield the ErrorResult whose
`details` is `m`. -/
theorem claim_C3 :
    (∀ b, ∃ es, CoinGecko.fetchCryptoPrices b = JSValue.obj es ∧
      (es.map Prod.fst = CoinGecko.CRYPTO_IDS ∨
        es.map Prod.fst = ["error", "details"])) ∧
    (∀ m, CoinGecko.fetchCryptoPrices (UpstreamBehavior.netError m) = errObj m) ∧
    (∀ (r : UpstreamResponse) (m : String), r.ok = true → r.json = Except.error m →
      CoinGecko.fetchCryptoPrices (UpstreamBehavior.response r) = errObj m) ∧
    (∀ b, ∃ es, CoinMarketCap.fetchCryptoPrices b = JSValue.obj es ∧
      (es.map Prod.fst = CoinMarketCap.CRYPTO_SYMBOLS.map toLowerCase ∨
        es.map Prod.fst = ["error", "details"])) ∧
    (∀ m, CoinMarketCap.fetchCryptoPrices (UpstreamBehavior.netError m) = errObj m) ∧
    (∀ (r : UpstreamResponse) (m : String), r.ok = true → r.json = Except.error m →
      CoinMarketCap.fetchCryptoPrices (UpstreamBehavior.response r) = errObj m) := by
  refine ⟨?_, fun m => rfl, ?_, ?_, fun m => rfl, ?_⟩
  · intro b
    rcases geckoShape b with ⟨d, hd⟩ | ⟨es, he, hk⟩
    · exact ⟨[("error", JSValue.str "Failed to fetch cryptocurrency prices"),
        ("details", JSValue.str d)], hd, Or.inr rfl⟩
    · exact ⟨es, he, Or.inl hk⟩
  · intro r m hok hj
    simp [CoinGecko.fetchCryptoPrices, hok, hj]
  · intro b
    rcases cmcShape b with ⟨d, hd⟩ | ⟨es, he, hk⟩
    · exact ⟨[("error", JSValue.str "Failed to fetch cryptocurrency prices"),
        ("details", JSValue.str d)], hd, Or.inr rfl⟩
    · exact ⟨es, he, Or.inl hk⟩
  · intro r m hok hj
    simp [CoinMarketCap.fetchCryptoPrices, hok, hj]

/-- Concrete malformed-JSON reply used by the witness of C3. -/
def parseFailResp : UpstreamResponse :=
  UpstreamResponse.mk 200 "OK" "not json" (Except.error "Unexpected token in JSON")

/-- Witness for C3: a 200 reply whose body fails to parse yields the
ErrorResult carrying the parse message, in both variants. -/
theorem claim_C3_witness :
    parseFailResp.ok = true ∧
    CoinGecko.fetchCryptoPrices (UpstreamBehavior.response parseFailResp) =
      errObj "Unexpected token in JSON" ∧
    CoinMarketCap.fetchCryptoPrices (UpstreamBehavior.response parseFailResp) =
      errObj "Unexpected token in JSON" :=
  ⟨rfl, claim_C3.2.2.1 parseFailResp "Unexpected token in JSON" rfl rfl,
    (claim_C3.2.2.2.2.2) parseFailResp "Unexpected token in JSON" rfl rfl⟩

/-- C4: in both variants, the `/prices` handler always replies with the
fetcher's result as body, with status 500 exactly when that result
carries an `error` field and status 200 exactly when it does not. -/
theorem claim_C4 :
    (∀ b, (CoinGecko.handlePrices b).2 = CoinGecko.fetchCryptoPrices b ∧
      (((CoinGecko.handlePrices b).1 = 500 ∧
          hasField (CoinGecko.fetchCryptoPrices b) "error" = true) ∨
        ((CoinGecko.handlePrices b).1 = 200 ∧
          hasField (CoinGecko.fetchCryptoPrices b) "error" = false))) ∧
    (∀ b, (CoinMarketCap.handlePrices b).2 = CoinMarketCap.fetchCryptoPrices b ∧
      (((CoinMarketCap.handlePrices b).1 = 500 ∧
          hasField (CoinMarketCap.fetchCryptoPrices b) "error" = true) ∨
        ((CoinMarketCap.handlePrices b).1 = 200 ∧
          hasField (CoinMarketCap.fetchCryptoPrices b) "error" = false))) := by
  constructor
  · intro b
    rcases geckoShape b with ⟨d, hd⟩ | ⟨es, he, hk⟩
    · have hh : CoinGecko.handlePrices b = (500, errObj d) := by
        rw [CoinGecko.handlePrices, hd, pricesRoute_errObj]
      exact ⟨by rw [hh, hd], Or.inl ⟨by rw [hh], by rw [hd]; rfl⟩⟩
    · have herr : "error" ∉ es.map Prod.fst := by rw [hk]; decide
      have hh : CoinGecko.handlePrices b = (200, JSValue.obj es) := by
        rw [CoinGecko.handlePrices, he, pricesRoute_noError herr]
      refine ⟨by rw [hh, he], Or.inr ⟨by rw [hh], ?_⟩⟩
      rw [he]
      show (es.map Prod.fst).contains "error" = false
      rw [hk]
      decide
  · intro b
    rcases cmcShape b with ⟨d, hd⟩ | ⟨es, he, hk⟩
    · have hh : CoinMarketCap.handlePrices b = (500, errObj d) := by
        rw [CoinMarketCap.handlePrices, hd, pricesRoute_errObj]
      exact ⟨by rw [hh, hd], Or.inl ⟨by rw [hh], by rw [hd]; rfl⟩⟩
    · have herr : "error" ∉ es.map Prod.fst := by rw [hk]; decide
      have hh : CoinMarketCap.handlePrices b = (200, JSValue.obj es) := by
        rw [CoinMarketCap.handlePrices, he, pricesRoute_noError herr]
      refine ⟨by rw [hh, he], Or.inr ⟨by rw [hh], ?_⟩⟩
      rw [he]
      show (es.map Prod.fst).contains "error" = false
      rw [hk]
      decide

/-- C5: in both variants, a reply with a non-success HTTP status makes the
fetcher return the ErrorResult whose `error` is the fixed message and
whose `details` is the templated string carrying the status code and the
captured body text, and `/prices` replies 500 with it. -/
theorem claim_C5 :
    (∀ r : UpstreamResponse, r.ok = false →
      CoinGecko.fetchCryptoPrices (UpstreamBehavior.response r) =
        errObj ("CoinGecko API error: " ++ toString r.status ++ " "
                ++ r.statusText ++ " - " ++ r.bodyText) ∧
      CoinGecko.handlePrices (UpstreamBehavior.response r) =
        (500, errObj ("CoinGecko API error: " ++ toString r.status ++ " "
                ++ r.statusText ++ " - " ++ r.bodyText)) ∧
      (∃ pre mid, "CoinGecko API error: " ++ toString r.status ++ " "
          ++ r.statusText ++ " - " ++ r.bodyText
          = pre ++ toString r.status ++ mid ++ r.bodyText)) ∧
    (∀ r : UpstreamResponse, r.ok = false →
      CoinMarketCap.fetchCryptoPrices (UpstreamBehavior.response r) =
        errObj ("CoinMarketCap API error: " ++ toString r.status ++ " "
                ++ r.statusText ++ " - " ++ r.bodyText) ∧
      CoinMarketCap.handlePrices (UpstreamBehavior.response r) =
        (500, errObj ("CoinMarketCap API error: " ++ toString r.status ++ " "
                ++ r.statusText ++ " - " ++ r.bodyText)) ∧
      (∃ pre mid, "CoinMarketCap API error: " ++ toString r.status ++ " "
          ++ r.statusText ++ " - " ++ r.bodyText
          = pre ++ toString r.status ++ mid ++ r.bodyText)) := by
  constructor
  · intro r hok
    have hf : CoinGecko.fetchCryptoPrices (UpstreamBehavior.response r) =
        errObj ("CoinGecko API error: " ++ toString r.status ++ " "
                ++ r.statusText ++ " - " ++ r.bodyText) := by
      simp [CoinGecko.fetchCryptoPrices, hok]
    refine ⟨hf, by rw [CoinGecko.handlePrices, hf, pricesRoute_errObj],
      ⟨"CoinGecko API error: ", " " ++ r.statusText ++ " - ", ?_⟩⟩
    simp [String.append_assoc]
  · intro r hok
    have hf : CoinMarketCap.fetchCryptoPrices (UpstreamBehavior.response r) =
        errObj ("CoinMarketCap API error: " ++ toString r.status ++ " "
                ++ r.statusText ++ " - " ++ r.bodyText) := by
      simp [CoinMarketCap.fetchCryptoPrices, hok]
    refine ⟨hf, by rw [CoinMarketCap.handlePrices, hf, pricesRoute_errObj],
      ⟨"CoinMarketCap API error: ", " " ++ r.statusText ++ " - ", ?_⟩⟩
    simp [String.append_assoc]

/-- Concrete HTTP 503 reply used by the witness of C5. -/
def resp503 : UpstreamResponse :=
  UpstreamResponse.mk 503 "Service Unavailable" "upstream overloaded"
    (Except.ok JSValue.null)

/-- Witness for C5 at status 503: both variants reply 500 and the details
string carries the status code and the body text. -/
theorem claim_C5_witness :
    resp503.ok = false ∧
    CoinGecko.fetchCryptoPrices (UpstreamBehavior.response resp503) =
      errObj "CoinGecko API error: 503 Service Unavailable - upstream overloaded" ∧
    CoinMarketCap.handlePrices (UpstreamBehavior.response resp503) =
      (500, errObj "CoinMarketCap API error: 503 Service Unavailable - upstream overloaded") := by
  refine ⟨rfl, ?_, ?_⟩
  · have h := (claim_C5.1 resp503 rfl).1
    rw [h]
    rfl
  · have h := (claim_C5.2 resp503 rfl).2.1
    rw [h]
    rfl

/-- C8: in both variants, `GET /` replies 200 with the fixed welcome text
and its response is a constant function of the upstream world: the route
never contacts upstream. -/
theorem claim_C8 :
    (∀ b, CoinGecko.handleRoot b =
      (200, "Welcome to the Crypto Price API! Access /prices to get the latest data.")) ∧
    (∀ b c, CoinGecko.handleRoot b = CoinGecko.handleRoot c) ∧
    (∀ b, CoinMarketCap.handleRoot b =
      (200, "Welcome to the Crypto Price API! Access /prices to get the latest data from CoinMarketCap.")) ∧
    (∀ b c, CoinMarketCap.handleRoot b = CoinMarketCap.handleRoot c) :=
  ⟨fun _ => rfl, fun _ _ => rfl, fun _ => rfl, fun _ _ => rfl⟩

/-- The payload condition under which the CoinGecko loop stores a number
for identifier `id`: `data[id]` is truthy and `data[id][VS_CURRENCY]` is
the truthy (non-zero) number `q`. -/
def geckoPricedAt (data : JSValue) (id : String) (q : ℚ) : Prop :=
  truthy (jsGetD data id) = true ∧
  jsGetD (jsGetD data id) CoinGecko.VS_CURRENCY = JSValue.num q ∧ q ≠ 0

theorem geckoItem_of_priced {data : JSValue} {id : String} {q : ℚ}
    (h : geckoPricedAt data id q) :
    CoinGecko.priceItem data id = some (JSValue.num q) := by
  obtain ⟨h1, h2, h3⟩ := h
  have hg : jsGet data id = some (jsGetD data id) := jsGet_of_truthyD h1
  have hg2 : jsGet (jsGetD data id) CoinGecko.VS_CURRENCY =
      some (jsGetD (jsGetD data id) CoinGecko.VS_CURRENCY) :=
    jsGet_of_truthy _ h1
  have ht : truthy (JSValue.num q) = true := by simp [truthy, h3]
  simp [CoinGecko.priceItem, hg, h1, hg2, h2, ht]

/-- The payload condition under which the CoinMarketCap loop stores the
number `q` for symbol `sym`: the whole guard chain
`data.data && data.data[sym] && data.data[sym].length > 0 &&
data.data[sym][0].quote && data.data[sym][0].quote[CONVERT_CURRENCY]`
holds and the final `.price` member is the number `q` (which, unlike in
the CoinGecko variant, is stored even when zero). -/
def cmcPricedAt (data : JSValue) (sym : String) (q : ℚ) : Prop :=
  truthy (jsGetD data "data") = true ∧
  truthy (jsGetD (jsGetD data "data") sym) = true ∧
  jsGtZero (jsGetD (jsGetD (jsGetD data "data") sym) "length") = true ∧
  truthy (jsGetD (jsGetD (jsGetD (jsGetD data "data") sym) "0") "quote") = true ∧
  truthy (jsGetD (jsGetD (jsGetD (jsGetD (jsGetD data "data") sym) "0") "quote")
      CoinMarketCap.CONVERT_CURRENCY) = true ∧
  jsGetD (jsGetD (jsGetD (jsGetD (jsGetD (jsGetD data "data") sym) "0") "quote")
      CoinMarketCap.CONVERT_CURRENCY) "price" = JSValue.num q

theorem cmcItem_of_priced {data : JSValue} {sym : String} {q : ℚ}
    (h : cmcPricedAt data sym q) :
    CoinMarketCap.priceItem data sym = some (JSValue.num q) := by
  obtain ⟨h1, h2, h3, h4, h5, h6⟩ := h
  have g0 : jsGet data "data" = some (jsGetD data "data") := jsGet_of_truthyD h1
  have g1 : jsGet (jsGetD data "data") sym =
      some (jsGetD (jsGetD data "data") sym) := jsGet_of_truthy _ h1
  have g2 : jsGet (jsGetD (jsGetD data "data") sym) "length" =
      some (jsGetD (jsGetD (jsGetD data "data") sym) "length") := jsGet_of_truthy _ h2
  have g3 : jsGet (jsGetD (jsGetD data "data") sym) "0" =
      some (jsGetD (jsGetD (jsGetD data "data") sym) "0") := jsGet_of_truthy _ h2
  have g4 : jsGet (jsGetD (jsGetD (jsGetD data "data") sym) "0") "quote" =
      some (jsGetD (jsGetD (jsGetD (jsGetD data "data") sym) "0") "quote") :=
    jsGet_of_truthyD h4
  have g5 : jsGet (jsGetD (jsGetD (jsGetD (jsGetD data "data") sym) "0") "quote")
      CoinMarketCap.CONVERT_CURRENCY =
      some (jsGetD (jsGetD (jsGetD (jsGetD (jsGetD data "data") sym) "0") "quote")
        CoinMarketCap.CONVERT_CURRENCY) := jsGet_of_truthy _ h4
  have g6 : jsGet (jsGetD (jsGetD (jsGetD (jsGetD (jsGetD data "data") sym) "0") "quote")
      CoinMarketCap.CONVERT_CURRENCY) "price" =
      some (jsGetD (jsGetD (jsGetD (jsGetD (jsGetD (jsGetD data "data") sym) "0") "quote")
        CoinMarketCap.CONVERT_CURRENCY) "price") := jsGet_of_truthy _ h5
  simp [CoinMarketCap.priceItem, g0, h1, g1, h2, g2, h3, g3, g4, h4, g5, h5, g6, h6]

/-- The condition under which the CoinMarketCap embedded-status check does
not throw: `data.status` falsy, or `data.status.error_code` strictly equal
to the number `0`. -/
def cmcStatusOK (data : JSValue) : Prop :=
  (truthy (jsGetD data "status") &&
    jsStrictNeqZero (jsGetD (jsGetD data "status") "error_code")) = false

/-- C1 (amended): for a successful upstream response in which every
configured identifier carries a truthy (non-zero in the CoinGecko
variant) numeric price, the fetcher returns the PriceMap whose key list is
exactly the configured identifier list (lower-cased; the CoinGecko
identifiers are already lower-case, as the second conjunct records), each
key mapped to the numeric price from the payload, and `/prices` serves it
with status 200. -/
theorem claim_C1 :
    (∀ (r : UpstreamResponse) (data : JSValue) (p : String → ℚ),
      r.ok = true → r.json = Except.ok data →
      (∀ id ∈ CoinGecko.CRYPTO_IDS, geckoPricedAt data id (p id)) →
      CoinGecko.fetchCryptoPrices (UpstreamBehavior.response r) =
        JSValue.obj (CoinGecko.CRYPTO_IDS.map fun id => (id, JSValue.num (p id))) ∧
      CoinGecko.handlePrices (UpstreamBehavior.response r) =
        (200, JSValue.obj (CoinGecko.CRYPTO_IDS.map fun id => (id, JSValue.num (p id))))) ∧
    CoinGecko.CRYPTO_IDS.map toLowerCase = CoinGecko.CRYPTO_IDS ∧
    (∀ (r : UpstreamResponse) (data : JSValue) (p : String → ℚ),
      r.ok = true → r.json = Except.ok data →
      cmcStatusOK data →
      (∀ sym ∈ CoinMarketCap.CRYPTO_SYMBOLS, cmcPricedAt data sym (p sym)) →
      CoinMarketCap.fetchCryptoPrices (UpstreamBehavior.response r) =
        JSValue.obj (CoinMarketCap.CRYPTO_SYMBOLS.map
          fun s => (toLowerCase s, JSValue.num (p s))) ∧
      CoinMarketCap.handlePrices (UpstreamBehavior.response r) =
        (200, JSValue.obj (CoinMarketCap.CRYPTO_SYMBOLS.map
          fun s => (toLowerCase s, JSValue.num (p s))))) := by
  refine ⟨?_, by decide, ?_⟩
  · intro r data p hok hj hall
    have hm : mapItems (CoinGecko.priceItem data) (fun id => id) CoinGecko.CRYPTO_IDS =
        some (CoinGecko.CRYPTO_IDS.map fun id => (id, JSValue.num (p id))) :=
      mapItems_of_forall (fun s hs => geckoItem_of_priced (hall s hs))
    have hf : CoinGecko.fetchCryptoPrices (UpstreamBehavior.response r) =
        JSValue.obj (CoinGecko.CRYPTO_IDS.map fun id => (id, JSValue.num (p id))) := by
      simp [CoinGecko.fetchCryptoPrices, hok, hj, hm]
    have hkeys : ((CoinGecko.CRYPTO_IDS.map
        fun id => (id, JSValue.num (p id))).map Prod.fst) = CoinGecko.CRYPTO_IDS := rfl
    have herr : "error" ∉ ((CoinGecko.CRYPTO_IDS.map
        fun id => (id, JSValue.num (p id))).map Prod.fst) := by
      rw [hkeys]
      decide
    exact ⟨hf, by rw [CoinGecko.handlePrices, hf, pricesRoute_noError herr]⟩
  · intro r data p hok hj hsok hall
    have h1 := (hall "BTC" (by decide)).1
    have hstat : jsGet data "status" = some (jsGetD data "status") := jsGet_of_truthyD h1
    have hcond : (truthy (jsGetD data "status") &&
        jsStrictNeqZero (jsGetD (jsGetD data "status") "error_code")) = false := hsok
    have hm : mapItems (CoinMarketCap.priceItem data) toLowerCase
        CoinMarketCap.CRYPTO_SYMBOLS =
        some (CoinMarketCap.CRYPTO_SYMBOLS.map
          fun s => (toLowerCase s, JSValue.num (p s))) :=
      mapItems_of_forall (fun s hs => cmcItem_of_priced (hall s hs))
    have hf : CoinMarketCap.fetchCryptoPrices (UpstreamBehavior.response r) =
        JSValue.obj (CoinMarketCap.CRYPTO_SYMBOLS.map
          fun s => (toLowerCase s, JSValue.num (p s))) := by
      simp [CoinMarketCap.fetchCryptoPrices, hok, hj, hstat, hcond, hm]
    have hkeys : ((CoinMarketCap.CRYPTO_SYMBOLS.map
        fun s => (toLowerCase s, JSValue.num (p s))).map Prod.fst) =
        CoinMarketCap.CRYPTO_SYMBOLS.map toLowerCase := rfl
    have herr : "error" ∉ ((CoinMarketCap.CRYPTO_SYMBOLS.map
        fun s => (toLowerCase s, JSValue.num (p s))).map Prod.fst) := by
      rw [hkeys]
      decide
    exact ⟨hf, by rw [CoinMarketCap.handlePrices, hf, pricesRoute_noError herr]⟩

/-- CoinGecko payload carrying a price entry for every configured
identifier, with bitcoin's USD price equal to the number 0. -/
def geckoZeroData : JSValue :=
  JSValue.obj [("bitcoin", JSValue.obj [("usd", JSValue.num 0)]),
    ("ethereum", JSValue.obj [("usd", JSValue.num 2000)]),
    ("litecoin", JSValue.obj [("usd", JSValue.num 80)]),
    ("shiba-inu", JSValue.obj [("usd", JSValue.num 1)]),
    ("dogecoin", JSValue.obj [("usd", JSValue.num 1)]),
    ("tron", JSValue.obj [("usd", JSValue.num 1)]),
    ("ripple", JSValue.obj [("usd", JSValue.num 1)]),
    ("the-open-network", JSValue.obj [("usd", JSValue.num 2)]),
    ("tether", JSValue.obj [("usd", JSValue.num 1)])]

/-- Successful (HTTP 200) upstream reply delivering `geckoZeroData`. -/
def geckoZeroResp : UpstreamResponse :=
  UpstreamResponse.mk 200 "OK" "" (Except.ok geckoZeroData)

/-- Counterexample to C1 as stated: this successful payload carries a
numeric price entry for every configured identifier, yet the returned
PriceMap maps `bitcoin` to the string `N/A`, not to its numeric value 0,
because the loop guard tests the truthiness of `data[id][VS_CURRENCY]`. -/
theorem claim_C1_counterexample :
    (CoinGecko.CRYPTO_IDS.all fun id =>
      hasField geckoZeroData id &&
        hasField (jsGetD geckoZeroData id) CoinGecko.VS_CURRENCY) = true ∧
    jsGetD (jsGetD geckoZeroData "bitcoin") CoinGecko.VS_CURRENCY = JSValue.num 0 ∧
    CoinGecko.fetchCryptoPrices (UpstreamBehavior.response geckoZeroResp) =
      JSValue.obj [("bitcoin", JSValue.str "N/A"),
        ("ethereum", JSValue.num 2000), ("litecoin", JSValue.num 80),
        ("shiba-inu", JSValue.num 1), ("dogecoin", JSValue.num 1),
        ("tron", JSValue.num 1), ("ripple", JSValue.num 1),
        ("the-open-network", JSValue.num 2), ("tether", JSValue.num 1)] ∧
    JSValue.str "N/A" ≠ JSValue.num 0 :=
  ⟨rfl, rfl, rfl, fun hc => nomatch hc⟩

/-- CoinGecko payload with every configured identifier priced at 5. -/
def geckoAllFiveData : JSValue :=
  JSValue.obj (CoinGecko.CRYPTO_IDS.map
    fun id => (id, JSValue.obj [("usd", JSValue.num 5)]))

/-- Successful upstream reply delivering `geckoAllFiveData`. -/
def geckoAllFiveResp : UpstreamResponse :=
  UpstreamResponse.mk 200 "OK" "" (Except.ok geckoAllFiveData)

/-- CoinMarketCap payload with a zero embedded error code and every
configured symbol priced at 7. -/
def cmcAllSevenData : JSValue :=
  JSValue.obj [("status", JSValue.obj [("error_code", JSValue.num 0)]),
    ("data", JSValue.obj (CoinMarketCap.CRYPTO_SYMBOLS.map
      fun s => (s, JSValue.arr [JSValue.obj [("quote",
        JSValue.obj [("USD", JSValue.obj [("price", JSValue.num 7)])])]])))]

/-- Successful upstream reply delivering `cmcAllSevenData`. -/
def cmcAllSevenResp : UpstreamResponse :=
  UpstreamResponse.mk 200 "OK" "" (Except.ok cmcAllSevenData)

/-- Witness for the amended C1 at fully-priced concrete payloads in both
variants. -/
theorem claim_C1_witness :
    geckoAllFiveResp.ok = true ∧
    CoinGecko.handlePrices (UpstreamBehavior.response geckoAllFiveResp) =
      (200, JSValue.obj (CoinGecko.CRYPTO_IDS.map
        fun id => (id, JSValue.num 5))) ∧
    CoinMarketCap.handlePrices (UpstreamBehavior.response cmcAllSevenResp) =
      (200, JSValue.obj (CoinMarketCap.CRYPTO_SYMBOLS.map
        fun s => (toLowerCase s, JSValue.num 7))) := by
  refine ⟨rfl, (claim_C1.1 geckoAllFiveResp geckoAllFiveData (fun _ => 5) rfl rfl ?_).2,
    (claim_C1.2.2 cmcAllSevenResp cmcAllSevenData (fun _ => 7) rfl rfl rfl ?_).2⟩
  · intro id hid
    simp only [CoinGecko.CRYPTO_IDS, List.mem_cons, List.not_mem_nil, or_false] at hid
    rcases hid with rfl | rfl | rfl | rfl | rfl | rfl | rfl | rfl | rfl <;>
      exact ⟨rfl, rfl, by norm_num⟩
  · intro sym hsym
    simp only [CoinMarketCap.CRYPTO_SYMBOLS, List.mem_cons, List.not_mem_nil,
      or_false] at hsym
    rcases hsym with rfl | rfl | rfl | rfl | rfl | rfl | rfl | rfl | rfl <;>
      exact ⟨rfl, rfl, rfl, rfl, rfl, rfl⟩

/-- C6 (amended): for a successful upstream response in which exactly one
configured identifier's price entry is structurally absent and every other
identifier carries a truthy (non-zero in the CoinGecko variant) numeric
price, the PriceMap maps the absent identifier to `N/A`, every other
identifier to its numeric value, and the request still succeeds with
status 200, in both variants. -/
theorem claim_C6 :
    (∀ (r : UpstreamResponse) (fs : List (String × JSValue)) (p : String → ℚ)
        (k : String),
      r.ok = true → r.json = Except.ok (JSValue.obj fs) →
      k ∈ CoinGecko.CRYPTO_IDS →
      lookupField fs k = JSValue.undef →
      (∀ id ∈ CoinGecko.CRYPTO_IDS, id ≠ k → geckoPricedAt (JSValue.obj fs) id (p id)) →
      CoinGecko.fetchCryptoPrices (UpstreamBehavior.response r) =
        JSValue.obj (CoinGecko.CRYPTO_IDS.map fun id =>
          (id, if id = k then JSValue.str "N/A" else JSValue.num (p id))) ∧
      (CoinGecko.handlePrices (UpstreamBehavior.response r)).1 = 200) ∧
    (∀ (r : UpstreamResponse) (data : JSValue) (p : String → ℚ) (k : String),
      r.ok = true → r.json = Except.ok data →
      cmcStatusOK data →
      k ∈ CoinMarketCap.CRYPTO_SYMBOLS →
      truthy (jsGetD data "data") = true →
      jsGetD (jsGetD data "data") k = JSValue.undef →
      (∀ sym ∈ CoinMarketCap.CRYPTO_SYMBOLS, sym ≠ k → cmcPricedAt data sym (p sym)) →
      CoinMarketCap.fetchCryptoPrices (UpstreamBehavior.response r) =
        JSValue.obj (CoinMarketCap.CRYPTO_SYMBOLS.map fun s =>
          (toLowerCase s, if s = k then JSValue.str "N/A" else JSValue.num (p s))) ∧
      (CoinMarketCap.handlePrices (UpstreamBehavior.response r)).1 = 200) := by
  constructor
  · intro r fs p k hok hj hkmem habs hall
    have hitem : ∀ s ∈ CoinGecko.CRYPTO_IDS,
        CoinGecko.priceItem (JSValue.obj fs) s =
          some (if s = k then JSValue.str "N/A" else JSValue.num (p s)) := by
      intro s hs
      by_cases hsk : s = k
      · subst hsk
        simp [CoinGecko.priceItem, jsGet, habs, truthy]
      · rw [if_neg hsk]
        exact geckoItem_of_priced (hall s hs hsk)
    have hm : mapItems (CoinGecko.priceItem (JSValue.obj fs)) (fun id => id)
        CoinGecko.CRYPTO_IDS =
        some (CoinGecko.CRYPTO_IDS.map fun id =>
          (id, if id = k then JSValue.str "N/A" else JSValue.num (p id))) :=
      mapItems_of_forall hitem
    have hf : CoinGecko.fetchCryptoPrices (UpstreamBehavior.response r) =
        JSValue.obj (CoinGecko.CRYPTO_IDS.map fun id =>
          (id, if id = k then JSValue.str "N/A" else JSValue.num (p id))) := by
      simp [CoinGecko.fetchCryptoPrices, hok, hj, hm]
    have hkeys : ((CoinGecko.CRYPTO_IDS.map fun id =>
        (id, if id = k then JSValue.str "N/A" else JSValue.num (p id))).map
          Prod.fst) = CoinGecko.CRYPTO_IDS := rfl
    have herr : "error" ∉ ((CoinGecko.CRYPTO_IDS.map fun id =>
        (id, if id = k then JSValue.str "N/A" else JSValue.num (p id))).map
          Prod.fst) := by
      rw [hkeys]
      decide
    exact ⟨hf, by rw [CoinGecko.handlePrices, hf, pricesRoute_noError herr]⟩
  · intro r data p k hok hj hsok hkmem hdd habs hall
    have hstat : jsGet data "status" = some (jsGetD data "status") := jsGet_of_truthyD hdd
    have hcond : (truthy (jsGetD data "status") &&
        jsStrictNeqZero (jsGetD (jsGetD data "status") "error_code")) = false := hsok
    have hitem : ∀ s ∈ CoinMarketCap.CRYPTO_SYMBOLS,
        CoinMarketCap.priceItem data s =
          some (if s = k then JSValue.str "N/A" else JSValue.num (p s)) := by
      intro s hs
      by_cases hsk : s = k
      · subst hsk
        have g0 : jsGet data "data" = some (jsGetD data "data") := jsGet_of_truthyD hdd
        have g1 : jsGet (jsGetD data "data") s =
            some (jsGetD (jsGetD data "data") s) := jsGet_of_truthy _ hdd
        simp [CoinMarketCap.priceItem, g0, hdd, g1, habs, truthy]
      · rw [if_neg hsk]
        exact cmcItem_of_priced (hall s hs hsk)
    have hm : mapItems (CoinMarketCap.priceItem data) toLowerCase
        CoinMarketCap.CRYPTO_SYMBOLS =
        some (CoinMarketCap.CRYPTO_SYMBOLS.map fun s =>
          (toLowerCase s, if s = k then JSValue.str "N/A" else JSValue.num (p s))) :=
      mapItems_of_forall hitem
    have hf : CoinMarketCap.fetchCryptoPrices (UpstreamBehavior.response r) =
        JSValue.obj (CoinMarketCap.CRYPTO_SYMBOLS.map fun s =>
          (toLowerCase s, if s = k then JSValue.str "N/A" else JSValue.num (p s))) := by
      simp [CoinMarketCap.fetchCryptoPrices, hok, hj, hstat, hcond, hm]
    have hkeys : ((CoinMarketCap.CRYPTO_SYMBOLS.map fun s =>
        (toLowerCase s, if s = k then JSValue.str "N/A" else JSValue.num (p s))).map
          Prod.fst) = CoinMarketCap.CRYPTO_SYMBOLS.map toLowerCase := rfl
    have herr : "error" ∉ ((CoinMarketCap.CRYPTO_SYMBOLS.map fun s =>
        (toLowerCase s, if s = k then JSValue.str "N/A" else JSValue.num (p s))).map
          Prod.fst) := by
      rw [hkeys]
      decide
    exact ⟨hf, by rw [CoinMarketCap.handlePrices, hf, pricesRoute_noError herr]⟩

/-- CoinGecko payload omitting `ethereum` entirely, with bitcoin's USD
price equal to the number 0 and the remaining identifiers priced. -/
def geckoMissingData : JSValue :=
  JSValue.obj [("bitcoin", JSValue.obj [("usd", JSValue.num 0)]),
    ("litecoin", JSValue.obj [("usd", JSValue.num 80)]),
    ("shiba-inu", JSValue.obj [("usd", JSValue.num 1)]),
    ("dogecoin", JSValue.obj [("usd", JSValue.num 1)]),
    ("tron", JSValue.obj [("usd", JSValue.num 1)]),
    ("ripple", JSValue.obj [("usd", JSValue.num 1)]),
    ("the-open-network", JSValue.obj [("usd", JSValue.num 2)]),
    ("tether", JSValue.obj [("usd", JSValue.num 1)])]

/-- Successful upstream reply delivering `geckoMissingData`. -/
def geckoMissingResp : UpstreamResponse :=
  UpstreamResponse.mk 200 "OK" "" (Except.ok geckoMissingData)

/-- Counterexample to C6 as stated: exactly one configured identifier
(`ethereum`) is structurally absent from this successful payload and every
other identifier carries a numeric price entry, yet `bitcoin` — one of the
"other" identifiers, priced 0 — is also mapped to `N/A` instead of its
numeric value. -/
theorem claim_C6_counterexample :
    hasField geckoMissingData "ethereum" = false ∧
    (CoinGecko.CRYPTO_IDS.all fun id => (id == "ethereum") ||
      (hasField geckoMissingData id &&
        hasField (jsGetD geckoMissingData id) CoinGecko.VS_CURRENCY)) = true ∧
    jsGetD (jsGetD geckoMissingData "bitcoin") CoinGecko.VS_CURRENCY = JSValue.num 0 ∧
    CoinGecko.fetchCryptoPrices (UpstreamBehavior.response geckoMissingResp) =
      JSValue.obj [("bitcoin", JSValue.str "N/A"),
        ("ethereum", JSValue.str "N/A"), ("litecoin", JSValue.num 80),
        ("shiba-inu", JSValue.num 1), ("dogecoin", JSValue.num 1),
        ("tron", JSValue.num 1), ("ripple", JSValue.num 1),
        ("the-open-network", JSValue.num 2), ("tether", JSValue.num 1)] ∧
    JSValue.str "N/A" ≠ JSValue.num 0 :=
  ⟨rfl, rfl, rfl, rfl, fun hc => nomatch hc⟩

/-- Field list of a CoinGecko payload omitting `ethereum`, all other
identifiers priced at 5. -/
def geckoMissEthFields : List (String × JSValue) :=
  [("bitcoin", JSValue.obj [("usd", JSValue.num 5)]),
   ("litecoin", JSValue.obj [("usd", JSValue.num 5)]),
   ("shiba-inu", JSValue.obj [("usd", JSValue.num 5)]),
   ("dogecoin", JSValue.obj [("usd", JSValue.num 5)]),
   ("tron", JSValue.obj [("usd", JSValue.num 5)]),
   ("ripple", JSValue.obj [("usd", JSValue.num 5)]),
   ("the-open-network", JSValue.obj [("usd", JSValue.num 5)]),
   ("tether", JSValue.obj [("usd", JSValue.num 5)])]

/-- Successful upstream reply delivering `geckoMissEthFields`. -/
def geckoMissEthResp : UpstreamResponse :=
  UpstreamResponse.mk 200 "OK" "" (Except.ok (JSValue.obj geckoMissEthFields))

/-- CoinMarketCap payload with a zero embedded error code, omitting `ETH`,
all other symbols priced at 7. -/
def cmcMissEthData : JSValue :=
  JSValue.obj [("status", JSValue.obj [("error_code", JSValue.num 0)]),
    ("data", JSValue.obj
      ((CoinMarketCap.CRYPTO_SYMBOLS.filter (fun s => s ≠ "ETH")).map
        fun s => (s, JSValue.arr [JSValue.obj [("quote",
          JSValue.obj [("USD", JSValue.obj [("price", JSValue.num 7)])])]])))]

/-- Successful upstream reply delivering `cmcMissEthData`. -/
def cmcMissEthResp : UpstreamResponse :=
  UpstreamResponse.mk 200 "OK" "" (Except.ok cmcMissEthData)

/-- Witness for the amended C6: with `ethereum` (resp. `ETH`) absent and
everything else priced, the absent identifier maps to `N/A`, the rest to
their prices, and the request succeeds, in both variants. -/
theorem claim_C6_witness :
    lookupField geckoMissEthFields "ethereum" = JSValue.undef ∧
    CoinGecko.fetchCryptoPrices (UpstreamBehavior.response geckoMissEthResp) =
      JSValue.obj (CoinGecko.CRYPTO_IDS.map fun id =>
        (id, if id = "ethereum" then JSValue.str "N/A" else JSValue.num 5)) ∧
    jsGetD (jsGetD cmcMissEthData "data") "ETH" = JSValue.undef ∧
    CoinMarketCap.fetchCryptoPrices (UpstreamBehavior.response cmcMissEthResp) =
      JSValue.obj (CoinMarketCap.CRYPTO_SYMBOLS.map fun s =>
        (toLowerCase s, if s = "ETH" then JSValue.str "N/A" else JSValue.num 7)) := by
  have hallg : ∀ id ∈ CoinGecko.CRYPTO_IDS, id ≠ "ethereum" →
      geckoPricedAt (JSValue.obj geckoMissEthFields) id 5 := by
    intro id hid hne
    simp only [CoinGecko.CRYPTO_IDS, List.mem_cons, List.not_mem_nil, or_false] at hid
    rcases hid with rfl | rfl | rfl | rfl | rfl | rfl | rfl | rfl | rfl
    all_goals first
      | exact absurd rfl hne
      | exact ⟨rfl, rfl, by norm_num⟩
  have hallc : ∀ sym ∈ CoinMarketCap.CRYPTO_SYMBOLS, sym ≠ "ETH" →
      cmcPricedAt cmcMissEthData sym 7 := by
    intro sym hsym hne
    simp only [CoinMarketCap.CRYPTO_SYMBOLS, List.mem_cons, List.not_mem_nil,
      or_false] at hsym
    rcases hsym with rfl | rfl | rfl | rfl | rfl | rfl | rfl | rfl | rfl
    all_goals first
      | exact absurd rfl hne
      | exact ⟨rfl, rfl, rfl, rfl, rfl, rfl⟩
  have hg := claim_C6.1 geckoMissEthResp geckoMissEthFields (fun _ => 5) "ethereum"
    rfl rfl (by decide) rfl hallg
  have hc := claim_C6.2 cmcMissEthResp cmcMissEthData (fun _ => 7) "ETH"
    rfl rfl rfl (by decide) rfl rfl hallc
  exact ⟨rfl, hg.1, rfl, hc.1⟩

/-- Upstream JSON body carrying an embedded provider error status with a
non-zero error code, as delivered to the CoinGecko variant. -/
def geckoStatusErrData : JSValue :=
  JSValue.obj [("status", JSValue.obj [("error_code", JSValue.num 400),
    ("error_message", JSValue.str "Bad request")])]

/-- Successful (HTTP 200) reply delivering `geckoStatusErrData`. -/
def geckoStatusErrResp : UpstreamResponse :=
  UpstreamResponse.mk 200 "OK" "" (Except.ok geckoStatusErrData)

/-- Counterexample to C7 as stated: the CoinGecko variant performs no
embedded-status check, so a body whose `status.error_code` is the non-zero
number 400 is not treated as a failure — the fetcher returns an all-`N/A`
PriceMap and `/prices` responds 200, not 500. -/
theorem claim_C7_counterexample :
    truthy (jsGetD geckoStatusErrData "status") = true ∧
    jsGetD (jsGetD geckoStatusErrData "status") "error_code" = JSValue.num 400 ∧
    CoinGecko.fetchCryptoPrices (UpstreamBehavior.response geckoStatusErrResp) =
      JSValue.obj (CoinGecko.CRYPTO_IDS.map fun id => (id, JSValue.str "N/A")) ∧
    (CoinGecko.handlePrices (UpstreamBehavior.response geckoStatusErrResp)).1 = 200 :=
  ⟨rfl, rfl, rfl, rfl⟩

/-- C7 (amended): in the CoinMarketCap variant — the only variant that
inspects the parsed body for an embedded provider error status — a
successful reply whose `status` member is truthy with a non-zero numeric
`error_code` makes `fetchCryptoPrices` return the ErrorResult built from
the embedded `error_message`, and `/prices` responds 500.  (The CoinGecko
variant performs no such check; see the counterexample.) -/
theorem claim_C7 :
    ∀ (r : UpstreamResponse) (data : JSValue) (c : ℚ),
      r.ok = true → r.json = Except.ok data →
      truthy (jsGetD data "status") = true →
      jsGetD (jsGetD data "status") "error_code" = JSValue.num c →
      c ≠ 0 →
      CoinMarketCap.fetchCryptoPrices (UpstreamBehavior.response r) =
        errObj ("CoinMarketCap API internal error: "
          ++ jsTemplate (jsGetD (jsGetD data "status") "error_message")) ∧
      (CoinMarketCap.handlePrices (UpstreamBehavior.response r)).1 = 500 := by
  intro r data c hok hj hst hec hc
  have hstat : jsGet data "status" = some (jsGetD data "status") := jsGet_of_truthyD hst
  have hcond : (truthy (jsGetD data "status") &&
      jsStrictNeqZero (jsGetD (jsGetD data "status") "error_code")) = true := by
    simp [hst, hec, jsStrictNeqZero, hc]
  have hf : CoinMarketCap.fetchCryptoPrices (UpstreamBehavior.response r) =
      errObj ("CoinMarketCap API internal error: "
        ++ jsTemplate (jsGetD (jsGetD data "status") "error_message")) := by
    simp [CoinMarketCap.fetchCryptoPrices, hok, hj, hstat, hcond]
  exact ⟨hf, by rw [CoinMarketCap.handlePrices, hf, pricesRoute_errObj]⟩

/-- CoinMarketCap body with embedded error code 1001. -/
def cmcStatusErrData : JSValue :=
  JSValue.obj [("status", JSValue.obj [("error_code", JSValue.num 1001),
    ("error_message", JSValue.str "API key missing")])]

/-- Successful (HTTP 200) reply delivering `cmcStatusErrData`. -/
def cmcStatusErrResp : UpstreamResponse :=
  UpstreamResponse.mk 200 "OK" "" (Except.ok cmcStatusErrData)

/-- Witness for the amended C7: embedded error code 1001 makes the
CoinMarketCap variant fail the request with status 500. -/
theorem claim_C7_witness :
    truthy (jsGetD cmcStatusErrData "status") = true ∧
    jsGetD (jsGetD cmcStatusErrData "status") "error_code" = JSValue.num 1001 ∧
    CoinMarketCap.fetchCryptoPrices (UpstreamBehavior.response cmcStatusErrResp) =
      errObj "CoinMarketCap API internal error: API key missing" ∧
    (CoinMarketCap.handlePrices (UpstreamBehavior.response cmcStatusErrResp)).1 = 500 := by
  have h := claim_C7 cmcStatusErrResp cmcStatusErrData 1001 rfl rfl rfl rfl (by norm_num)
  refine ⟨rfl, rfl, ?_, h.2⟩
  rw [h.1]
  rw [show jsGetD (jsGetD cmcStatusErrData "status") "error_message" =
    JSValue.str "API key missing" from rfl]
  rw [show jsTemplate (JSValue.str "API key missing") = "API key missing" from
    by simp [jsTemplate]]
  rfl

/-- On an object payload the CoinGecko loop body never throws: each
iteration yields some value. -/
theorem geckoItem_obj_eq (fs : List (String × JSValue)) (i : String) :
    CoinGecko.priceItem (JSValue.obj fs) i =
      some ((CoinGecko.priceItem (JSValue.obj fs) i).getD JSValue.undef) := by
  have h0 : jsGet (JSValue.obj fs) i = some (lookupField fs i) := rfl
  simp only [CoinGecko.priceItem, h0]
  cases htr : truthy (lookupField fs i)
  · simp [htr]
  · rw [jsGet_of_truthy CoinGecko.VS_CURRENCY htr]
    cases hv : truthy (jsGetD (lookupField fs i) CoinGecko.VS_CURRENCY) <;>
      simp [htr, hv]

/-- C9: in the CoinGecko variant, a configured identifier that is present
in an object payload with a truthy entry whose USD value is falsy (for
example the number 0) is mapped to the string `N/A` rather than to that
value, because the loop guard tests the truthiness of
`data[id] && data[id][VS_CURRENCY]`; the rest of the map is still built. -/
theorem claim_C9 :
    ∀ (r : UpstreamResponse) (fs : List (String × JSValue)) (id : String),
      r.ok = true → r.json = Except.ok (JSValue.obj fs) →
      id ∈ CoinGecko.CRYPTO_IDS →
      truthy (lookupField fs id) = true →
      truthy (jsGetD (lookupField fs id) CoinGecko.VS_CURRENCY) = false →
      ∃ es, CoinGecko.fetchCryptoPrices (UpstreamBehavior.response r) =
          JSValue.obj es ∧
        es.map Prod.fst = CoinGecko.CRYPTO_IDS ∧
        lookupField es id = JSValue.str "N/A" := by
  intro r fs id hok hj hmem htr hv2
  have hm : mapItems (CoinGecko.priceItem (JSValue.obj fs)) (fun i => i)
      CoinGecko.CRYPTO_IDS =
      some (CoinGecko.CRYPTO_IDS.map fun i =>
        (i, (CoinGecko.priceItem (JSValue.obj fs) i).getD JSValue.undef)) :=
    mapItems_of_forall (fun s _ => geckoItem_obj_eq fs s)
  refine ⟨CoinGecko.CRYPTO_IDS.map fun i =>
      (i, (CoinGecko.priceItem (JSValue.obj fs) i).getD JSValue.undef),
    by simp [CoinGecko.fetchCryptoPrices, hok, hj, hm], rfl, ?_⟩
  have hitem : CoinGecko.priceItem (JSValue.obj fs) id = some (JSValue.str "N/A") := by
    have h0 : jsGet (JSValue.obj fs) id = some (lookupField fs id) := rfl
    have hg2 := jsGet_of_truthy CoinGecko.VS_CURRENCY htr
    simp only [CoinGecko.priceItem, h0, htr, hg2, hv2]
    simp
  rw [lookupField_map, if_pos hmem, hitem]
  rfl

/-- CoinGecko payload in which `dogecoin` is present with USD value 0 and
every other identifier is priced at 5. -/
def geckoDogeZeroFields : List (String × JSValue) :=
  [("bitcoin", JSValue.obj [("usd", JSValue.num 5)]),
   ("ethereum", JSValue.obj [("usd", JSValue.num 5)]),
   ("litecoin", JSValue.obj [("usd", JSValue.num 5)]),
   ("shiba-inu", JSValue.obj [("usd", JSValue.num 5)]),
   ("dogecoin", JSValue.obj [("usd", JSValue.num 0)]),
   ("tron", JSValue.obj [("usd", JSValue.num 5)]),
   ("ripple", JSValue.obj [("usd", JSValue.num 5)]),
   ("the-open-network", JSValue.obj [("usd", JSValue.num 5)]),
   ("tether", JSValue.obj [("usd", JSValue.num 5)])]

/-- Successful upstream reply delivering `geckoDogeZeroFields`. -/
def geckoDogeZeroResp : UpstreamResponse :=
  UpstreamResponse.mk 200 "OK" "" (Except.ok (JSValue.obj geckoDogeZeroFields))

/-- Witness for C9: `dogecoin` present with USD price 0 is mapped to
`N/A`. -/
theorem claim_C9_witness :
    truthy (lookupField geckoDogeZeroFields "dogecoin") = true ∧
    truthy (jsGetD (lookupField geckoDogeZeroFields "dogecoin")
      CoinGecko.VS_CURRENCY) = false ∧
    (∃ es, CoinGecko.fetchCryptoPrices (UpstreamBehavior.response geckoDogeZeroResp) =
        JSValue.obj es ∧
      es.map Prod.fst = CoinGecko.CRYPTO_IDS ∧
      lookupField es "dogecoin" = JSValue.str "N/A") :=
  ⟨rfl, rfl, claim_C9 geckoDogeZeroResp geckoDogeZeroFields "dogecoin"
    rfl rfl (by decide) rfl rfl⟩

/-- C10: no configured identifier lower-cases to `error` in either
variant, so a successful PriceMap never carries an `error` field and the
`/prices` dispatch can never misclassify it: it always answers 200 with
the map itself. -/
theorem claim_C10 :
    ("error" ∉ CoinGecko.CRYPTO_IDS) ∧
    ("error" ∉ CoinMarketCap.CRYPTO_SYMBOLS.map toLowerCase) ∧
    (∀ b es, CoinGecko.fetchCryptoPrices b = JSValue.obj es →
      es.map Prod.fst = CoinGecko.CRYPTO_IDS →
      hasField (JSValue.obj es) "error" = false ∧
      CoinGecko.handlePrices b = (200, JSValue.obj es)) ∧
    (∀ b es, CoinMarketCap.fetchCryptoPrices b = JSValue.obj es →
      es.map Prod.fst = CoinMarketCap.CRYPTO_SYMBOLS.map toLowerCase →
      hasField (JSValue.obj es) "error" = false ∧
      CoinMarketCap.handlePrices b = (200, JSValue.obj es)) := by
  refine ⟨by decide, by decide, ?_, ?_⟩
  · intro b es hf hk
    have herr : "error" ∉ es.map Prod.fst := by
      rw [hk]
      decide
    refine ⟨?_, by rw [CoinGecko.handlePrices, hf, pricesRoute_noError herr]⟩
    show (es.map Prod.fst).contains "error" = false
    rw [hk]
    decide
  · intro b es hf hk
    have herr : "error" ∉ es.map Prod.fst := by
      rw [hk]
      decide
    refine ⟨?_, by rw [CoinMarketCap.handlePrices, hf, pricesRoute_noError herr]⟩
    show (es.map Prod.fst).contains "error" = false
    rw [hk]
    decide

/-- The PriceMap entries produced from `geckoAllFiveData`. -/
def geckoAllFiveEntries : List (String × JSValue) :=
  CoinGecko.CRYPTO_IDS.map fun id => (id, JSValue.num 5)

/-- The PriceMap entries produced from `cmcAllSevenData`. -/
def cmcAllSevenEntries : List (String × JSValue) :=
  CoinMarketCap.CRYPTO_SYMBOLS.map fun s => (toLowerCase s, JSValue.num 7)

/-- Witness for C10 at concrete successful fetches in both variants. -/
theorem claim_C10_witness :
    hasField (JSValue.obj geckoAllFiveEntries) "error" = false ∧
    CoinGecko.handlePrices (UpstreamBehavior.response geckoAllFiveResp) =
      (200, JSValue.obj geckoAllFiveEntries) ∧
    hasField (JSValue.obj cmcAllSevenEntries) "error" = false ∧
    CoinMarketCap.handlePrices (UpstreamBehavior.response cmcAllSevenResp) =
      (200, JSValue.obj cmcAllSevenEntries) := by
  have h1 := claim_C10.2.2.1 (UpstreamBehavior.response geckoAllFiveResp)
    geckoAllFiveEntries rfl rfl
  have h2 := claim_C10.2.2.2 (UpstreamBehavior.response cmcAllSevenResp)
    cmcAllSevenEntries rfl rfl
  exact ⟨h1.1, h1.2, h2.1, h2.2⟩
